import Mathlib

/-!
Verification of the superkit in-process event bus (package event, file
event.go).  The Go source is shallowly embedded: the registry map
(map[string][]Subscription) becomes an association list with unique keys,
the buffered channel (make(chan event, 128)) becomes a FIFO list bounded by
the capacity check of a non-blocking send, machine integers (atomic.Uint64)
become Nat with an explicit modulus 2 ^ 64, and the goroutine interleavings
relevant to shutdown become an explicit small-step relation.
-/

namespace EventBus

/-- Outcome of one handler invocation: the Go handler either returns
normally or panics at runtime. -/
inductive HandlerOutcome : Type
  | normal : HandlerOutcome
  | panicked : HandlerOutcome
deriving DecidableEq, Repr

/-- The cancellation context handed to handlers: context.Context restricted
to the one observable fact the bus uses, whether cancel() has run. -/
structure Ctx : Type where
  cancelled : Bool
deriving DecidableEq, Repr

/-- HandlerFunc from event.go: func(context.Context, any).  The payload
type is a parameter mu standing for the Go type any. -/
def HandlerFunc (mu : Type) : Type := Ctx → mu → HandlerOutcome

/-- Subscription from event.go: ID uint64, Topic string, CreatedAt int64
(UnixNano), Fn HandlerFunc. -/
structure Subscription (mu : Type) : Type where
  ID : Nat
  Topic : String
  CreatedAt : Int
  Fn : HandlerFunc mu

/-- The event struct from event.go: a (topic, message) pair. -/
structure EventRec (mu : Type) : Type where
  topic : String
  message : mu

/-- Association-list lookup modelling Go map access e.subs[topic]. -/
def lookupTopic (subs : List (String × List (Subscription mu))) (t : String) :
    Option (List (Subscription mu)) :=
  match subs with
  | [] => none
  | (k, l) :: rest => if k = t then some l else lookupTopic rest t

/-- Association-list assignment modelling e.subs[topic] = l: replace the
entry for the key when present, otherwise insert it. -/
def setTopic (subs : List (String × List (Subscription mu))) (t : String)
    (l : List (Subscription mu)) : List (String × List (Subscription mu)) :=
  match subs with
  | [] => [(t, l)]
  | (k, l0) :: rest =>
      if k = t then (t, l) :: rest else (k, l0) :: setTopic rest t l

/-- Association-list removal modelling delete(e.subs, topic). -/
def deleteTopic (subs : List (String × List (Subscription mu))) (t : String) :
    List (String × List (Subscription mu)) :=
  subs.filter (fun p => p.1 ≠ t)

/-- The buffered channel capacity from newStream: make(chan event, 128). -/
def chanCapacity : Nat := 128

/-- The modulus of the uint64 subscription id counter. -/
def uint64Mod : Nat := 2 ^ 64

/-- State of the eventStream struct.  The buffered channel eventch is the
FIFO list of pending events; closed is the atomic.Bool; stopDone is the
done flag of the sync.Once guard; subIDCounter is the global atomic.Uint64
(one stream per process, so it is carried in the state); drains is a ghost
counter, not in the source, counting executions of the stopOnce body, as in
the spec scenario that verifies the drain body runs once. -/
structure StreamState (mu : Type) : Type where
  subs : List (String × List (Subscription mu))
  eventch : List (EventRec mu)
  chanClosed : Bool
  ctxCancelled : Bool
  closed : Bool
  stopDone : Bool
  subIDCounter : Nat
  drains : Nat

/-- The stream state built by newStream: empty registry, empty buffer,
open channel, live context. -/
def initialState (mu : Type) : StreamState mu :=
  { subs := []
    eventch := []
    chanClosed := false
    ctxCancelled := false
    closed := false
    stopDone := false
    subIDCounter := 0
    drains := 0 }

/-- eventStream.emit: drop when closed; otherwise a non-blocking send that
drops when the buffer already holds chanCapacity events.  The second
component is the list of log lines produced, the only error signal. -/
def emit (s : StreamState mu) (topic : String) (v : mu) :
    StreamState mu × List String :=
  if s.closed then
    (s, ["dropping event because stream is closed"])
  else if s.eventch.length < chanCapacity then
    ({ s with eventch := s.eventch ++ [⟨topic, v⟩] }, [])
  else
    (s, ["event channel full; dropping event"])

/-- eventStream.subscribe: build a Subscription with id subIDCounter.Add(1)
and CreatedAt time.Now().UnixNano() (passed in as now), then append it to
the topic entry of the registry (Go map access of a missing key yields the
empty slice). -/
def subscribe (s : StreamState mu) (topic : String) (h : HandlerFunc mu)
    (now : Int) : StreamState mu × Subscription mu :=
  let newId := (s.subIDCounter + 1) % uint64Mod
  let sub : Subscription mu := ⟨newId, topic, now, h⟩
  let cur := (lookupTopic s.subs topic).getD []
  ({ s with
      subIDCounter := newId
      subs := setTopic s.subs topic (cur ++ [sub]) }, sub)

/-- eventStream.unsubscribe: when the topic is present, remove every entry
whose ID matches (slices.DeleteFunc), and delete the topic key when the
remaining list is empty. -/
def unsubscribe (s : StreamState mu) (sub : Subscription mu) :
    StreamState mu :=
  match lookupTopic s.subs sub.Topic with
  | none => s
  | some l =>
      let l2 := l.filter (fun x => x.ID ≠ sub.ID)
      if l2.isEmpty then { s with subs := deleteTopic s.subs sub.Topic }
      else { s with subs := setTopic s.subs sub.Topic l2 }

/-- The body of eventStream.stop guarded by stopOnce: set closed, cancel
the context, close the channel, wait for handlers (no handler is in flight
in the sequential model; the interleaved wait is in the step relation
below), then clear the registry.  drains is the ghost once-counter. -/
def stopBody (s : StreamState mu) : StreamState mu :=
  { s with
      closed := true
      ctxCancelled := true
      chanClosed := true
      subs := []
      drains := s.drains + 1 }

/-- eventStream.stop: sync.Once means the body runs only when it has not
run before. -/
def stop (s : StreamState mu) : StreamState mu :=
  if s.stopDone then s else { stopBody s with stopDone := true }

/-- One handler invocation started by the dispatch loop: the Subscription
it runs and the message it receives. -/
structure Invocation (mu : Type) : Type where
  sub : Subscription mu
  msg : mu

/-- The snapshot taken by eventStream.start under the read lock:
append([]Subscription(nil), e.subs[evt.topic]...). -/
def snapshotTopic (s : StreamState mu) (t : String) : List (Subscription mu) :=
  (lookupTopic s.subs t).getD []

/-- The fan-out of one received event in eventStream.start: one invocation
per handler in the snapshot, each receiving evt.message. -/
def dispatchEvent (s : StreamState mu) (evt : EventRec mu) :
    List (Invocation mu) :=
  (snapshotTopic s evt.topic).map (fun sub => ⟨sub, evt.message⟩)

/-- One buffered receive of the dispatch loop: dequeue the head event and
fan it out; an empty buffer starts nothing. -/
def dispatchNext (s : StreamState mu) : StreamState mu × List (Invocation mu) :=
  match s.eventch with
  | [] => (s, [])
  | e :: rest => ({ s with eventch := rest }, dispatchEvent s e)

/-- Fold of subscribe over a list of (handler, timestamp) pairs on one
topic, keeping only the state. -/
def subscribeMany (s : StreamState mu) (topic : String)
    (hs : List (HandlerFunc mu × Int)) : StreamState mu :=
  hs.foldl (fun acc hn => (subscribe acc topic hn.1 hn.2).1) s

/-- Fold of subscribe over a list of (topic, handler, timestamp) triples,
collecting the returned subscriptions in order. -/
def subscribeTrace (s : StreamState mu) :
    List (String × HandlerFunc mu × Int) →
    StreamState mu × List (Subscription mu)
  | [] => (s, [])
  | (t, h, n) :: rest =>
      let p := subscribe s t h n
      let q := subscribeTrace p.1 rest
      (q.1, p.2 :: q.2)

/-- A registry operation: the two mutators of the subscription registry. -/
inductive RegOp (mu : Type) : Type
  | sub (topic : String) (h : HandlerFunc mu) (now : Int) : RegOp mu
  | unsub (s : Subscription mu) : RegOp mu

/-- Apply one registry operation to the stream state. -/
def applyOp (s : StreamState mu) : RegOp mu → StreamState mu
  | .sub t h n => (subscribe s t h n).1
  | .unsub sub => unsubscribe s sub

/-- Apply a sequence of registry operations. -/
def applyOps (s : StreamState mu) (ops : List (RegOp mu)) : StreamState mu :=
  ops.foldl applyOp s

/-- Registry invariant: every topic entry present in the map holds a
non-empty handler list. -/
def RegistryInv (subs : List (String × List (Subscription mu))) : Prop :=
  ∀ p ∈ subs, p.2 ≠ []

/-- Outcome of the per-handler goroutine spawned by eventStream.start:
whether the deferred wg.Done ran, and whether a panic escaped the
goroutine body.  In Go, a panic that escapes the top function of a
goroutine terminates the whole process. -/
structure GoroutineOutcome : Type where
  wgDone : Bool
  panicEscapes : Bool
deriving DecidableEq, Repr

/-- The body of the goroutine started per handler in eventStream.start:
defer e.wg.Done() followed by s.Fn(e.ctx, msg).  The body contains no
recover, so when Fn panics the deferred wg.Done still runs and the panic
then escapes the goroutine. -/
def handlerGoroutineBody (sub : Subscription mu) (c : Ctx) (msg : mu) :
    GoroutineOutcome :=
  match sub.Fn c msg with
  | .normal => ⟨true, false⟩
  | .panicked => ⟨true, true⟩

/-- Go runtime rule: a panic escaping a goroutine top-level function
crashes the process, taking the dispatch loop and every other goroutine
down with it. -/
def processCrashes (o : GoroutineOutcome) : Bool := o.panicEscapes

/-- Result of the package-level Emit wrapper: either a normal return
carrying the new global stream and the log lines, or a runtime panic
(which a nil-pointer dereference would raise). -/
inductive GoResult (α : Type) : Type
  | ok (a : α) : GoResult α
  | panicked (msg : String) : GoResult α

/-- The package-level Emit function: when the global stream pointer is
nil it logs a warning and returns without touching any state; otherwise
it calls stream.emit.  The nil check is what keeps the nil case from
being a panicked result. -/
def EmitGlobal (stream : Option (StreamState mu)) (topic : String) (v : mu) :
    GoResult (Option (StreamState mu) × List String) :=
  match stream with
  | none => .ok (none, ["event stream not initialized; dropping event"])
  | some s =>
      let p := emit s topic v
      .ok (some p.1, p.2)

/-- Program counter of the dispatch-loop goroutine (eventStream.start):
it is at the select, or iterating the handler snapshot of a received
event, or has returned. -/
inductive LoopPC (mu : Type) : Type
  | select : LoopPC mu
  | dispatching (pending : List (Subscription mu)) (msg : mu) : LoopPC mu
  | exited : LoopPC mu

/-- Program counter of a caller inside eventStream.stop, one point per
statement of the stopOnce body. -/
inductive StopPC : Type
  | sNotCalled : StopPC
  | sWon : StopPC
  | sClosedSet : StopPC
  | sCancelled : StopPC
  | sChanClosed : StopPC
  | sWaited : StopPC
  | sReturned : StopPC
deriving DecidableEq, Repr

/-- Configuration of the interleaved system during shutdown: the shared
stream state, the dispatch-loop goroutine, one stop caller, and the
WaitGroup counter (wg.Add runs before each handler goroutine starts and
the deferred wg.Done runs when it completes, so wg counts registered
in-flight handler invocations). -/
structure SysState (mu : Type) : Type where
  core : StreamState mu
  loop : LoopPC mu
  stopPC : StopPC
  wg : Nat

/-- Interleaving semantics of eventStream.start and eventStream.stop.
Receives on a closed buffered Go channel still drain buffered values
first, so loopRecv does not require the channel open; the select may pick
either ready arm.  The snapshot is taken under the read lock right after
the receive (loopRecv bundles the two, which is one legal schedule).
stopWait is wg.Wait(): it proceeds exactly when the counter reads
zero. -/
inductive Step : SysState mu → SysState mu → Prop
  | loopRecv (s : SysState mu) (e : EventRec mu) (rest : List (EventRec mu)) :
      s.loop = .select → s.core.eventch = e :: rest →
      Step s { s with
                core := { s.core with eventch := rest }
                loop := .dispatching (snapshotTopic s.core e.topic) e.message }
  | loopRecvClosed (s : SysState mu) :
      s.loop = .select → s.core.eventch = [] → s.core.chanClosed = true →
      Step s { s with loop := .exited }
  | loopCtxDone (s : SysState mu) :
      s.loop = .select → s.core.ctxCancelled = true →
      Step s { s with loop := .exited }
  | loopSpawn (s : SysState mu) (sub : Subscription mu)
      (hs : List (Subscription mu)) (msg : mu) :
      s.loop = .dispatching (sub :: hs) msg →
      Step s { s with wg := s.wg + 1, loop := .dispatching hs msg }
  | loopDispatchDone (s : SysState mu) (msg : mu) :
      s.loop = .dispatching [] msg →
      Step s { s with loop := .select }
  | handlerDone (s : SysState mu) :
      0 < s.wg → Step s { s with wg := s.wg - 1 }
  | stopCall (s : SysState mu) :
      s.stopPC = .sNotCalled → s.core.stopDone = false →
      Step s { s with stopPC := .sWon, core := { s.core with stopDone := true } }
  | stopSetClosed (s : SysState mu) :
      s.stopPC = .sWon →
      Step s { s with stopPC := .sClosedSet, core := { s.core with closed := true } }
  | stopCancel (s : SysState mu) :
      s.stopPC = .sClosedSet →
      Step s { s with stopPC := .sCancelled, core := { s.core with ctxCancelled := true } }
  | stopCloseChan (s : SysState mu) :
      s.stopPC = .sCancelled →
      Step s { s with stopPC := .sChanClosed, core := { s.core with chanClosed := true } }
  | stopWait (s : SysState mu) :
      s.stopPC = .sChanClosed → s.wg = 0 →
      Step s { s with stopPC := .sWaited }
  | stopClear (s : SysState mu) :
      s.stopPC = .sWaited →
      Step s { s with
                stopPC := .sReturned
                core := { s.core with subs := [], drains := s.core.drains + 1 } }

/-- A handler used in concrete scenarios: returns normally. -/
def hNormal : HandlerFunc Nat := fun _ _ => .normal

/-- A handler used in concrete scenarios: panics at runtime. -/
def hFaulty : HandlerFunc Nat := fun _ _ => .panicked

/-- The one registered subscription of the shutdown-race scenario. -/
def raceSub : Subscription Nat := ⟨1, "t", 0, hNormal⟩

/-- Initial configuration of the shutdown-race scenario: one subscription
on topic t and one event for t already enqueued; the loop is at the
select; stop has not been called; no handler is in flight. -/
def raceInit : SysState Nat :=
  { core :=
      { subs := [("t", [raceSub])]
        eventch := [⟨"t", 42⟩]
        chanClosed := false
        ctxCancelled := false
        closed := false
        stopDone := false
        subIDCounter := 1
        drains := 0 }
    loop := .select
    stopPC := .sNotCalled
    wg := 0 }

/-- Shutdown-race scenario after the loop has dequeued the event and
snapshotted its handler, and stop has then run to completion: stop has
returned (registry cleared, drain done) while the loop still holds a
pending handler it has not yet registered with the WaitGroup. -/
def raceStopReturned : SysState Nat :=
  { core :=
      { subs := []
        eventch := []
        chanClosed := true
        ctxCancelled := true
        closed := true
        stopDone := true
        subIDCounter := 1
        drains := 1 }
    loop := .dispatching [raceSub] 42
    stopPC := .sReturned
    wg := 0 }

/-- Shutdown-race scenario one step later: the loop has performed
wg.Add(1) and started the handler goroutine, after stop already
returned. -/
def raceSpawned : SysState Nat :=
  { core := raceStopReturned.core
    loop := .dispatching [] 42
    stopPC := .sReturned
    wg := 1 }

/-- Intermediate configuration of the race: the loop dequeued the event
and took the snapshot; stop has not been called yet. -/
def raceT1 : SysState Nat :=
  { raceInit with
      core := { raceInit.core with eventch := [] }
      loop := .dispatching [raceSub] 42 }

/-- Intermediate configuration: a caller entered the stopOnce body. -/
def raceT2 : SysState Nat :=
  { raceT1 with
      stopPC := .sWon
      core := { raceT1.core with stopDone := true } }

/-- Intermediate configuration: after closed.Store(true). -/
def raceT3 : SysState Nat :=
  { raceT2 with
      stopPC := .sClosedSet
      core := { raceT2.core with closed := true } }

/-- Intermediate configuration: after cancel(). -/
def raceT4 : SysState Nat :=
  { raceT3 with
      stopPC := .sCancelled
      core := { raceT3.core with ctxCancelled := true } }

/-- Intermediate configuration: after close(eventch). -/
def raceT5 : SysState Nat :=
  { raceT4 with
      stopPC := .sChanClosed
      core := { raceT4.core with chanClosed := true } }

/-- Intermediate configuration: wg.Wait() returned because the counter
reads zero, though the loop has not yet registered its pending handler. -/
def raceT6 : SysState Nat :=
  { raceT5 with stopPC := .sWaited }

/-- A subscription whose handler panics at runtime, for the fault
scenario. -/
def faultySub : Subscription Nat := ⟨1, "t", 0, hFaulty⟩

/-- A stream state whose buffer already holds 128 pending events, for the
full-queue scenario. -/
def fullState : StreamState Nat :=
  { initialState Nat with eventch := List.replicate 128 ⟨"t", 0⟩ }

/-- A stream state with one subscription on topic t, for the unsubscribe
scenario. -/
def oneSubState : StreamState Nat :=
  { initialState Nat with subs := [("t", [raceSub])], subIDCounter := 1 }

theorem lookupTopic_setTopic_self (subs : List (String × List (Subscription mu)))
    (t : String) (l : List (Subscription mu)) :
    lookupTopic (setTopic subs t l) t = some l := by
  induction subs with
  | nil => simp [setTopic, lookupTopic]
  | cons p rest ih =>
      obtain ⟨k, l0⟩ := p
      by_cases h : k = t
      · simp [setTopic, h, lookupTopic]
      · simp [setTopic, h, lookupTopic, ih]

theorem lookupTopic_deleteTopic_self (subs : List (String × List (Subscription mu)))
    (t : String) :
    lookupTopic (deleteTopic subs t) t = none := by
  induction subs with
  | nil => simp [deleteTopic, lookupTopic]
  | cons p rest ih =>
      obtain ⟨k, l0⟩ := p
      by_cases h : k = t
      · simpa [deleteTopic, List.filter_cons, h] using ih
      · simpa [deleteTopic, List.filter_cons, h, lookupTopic] using ih

theorem lookupTopic_mem (subs : List (String × List (Subscription mu)))
    (t : String) (l : List (Subscription mu))
    (h : lookupTopic subs t = some l) : (t, l) ∈ subs := by
  induction subs with
  | nil => simp [lookupTopic] at h
  | cons p rest ih =>
      obtain ⟨k, l0⟩ := p
      by_cases hk : k = t
      · simp [lookupTopic, hk] at h
        simp [hk, h]
      · simp [lookupTopic, hk] at h
        exact List.mem_cons_of_mem _ (ih h)

theorem mem_setTopic (subs : List (String × List (Subscription mu)))
    (t : String) (l : List (Subscription mu))
    (p : String × List (Subscription mu)) (h : p ∈ setTopic subs t l) :
    p = (t, l) ∨ p ∈ subs := by
  induction subs with
  | nil => simpa [setTopic] using h
  | cons q rest ih =>
      obtain ⟨k, l0⟩ := q
      by_cases hk : k = t
      · simp [setTopic, hk] at h
        rcases h with h | h
        · exact Or.inl h
        · exact Or.inr (List.mem_cons_of_mem _ h)
      · simp [setTopic, hk] at h
        rcases h with h | h
        · exact Or.inr (by simp [h])
        · rcases ih h with h1 | h1
          · exact Or.inl h1
          · exact Or.inr (List.mem_cons_of_mem _ h1)

theorem mem_deleteTopic (subs : List (String × List (Subscription mu)))
    (t : String) (p : String × List (Subscription mu))
    (h : p ∈ deleteTopic subs t) : p ∈ subs :=
  List.mem_of_mem_filter h

theorem snapshotTopic_subscribe_self (s : StreamState mu) (t : String)
    (h : HandlerFunc mu) (n : Int) :
    snapshotTopic ((subscribe s t h n).1) t =
      snapshotTopic s t ++ [(subscribe s t h n).2] := by
  simp [subscribe, snapshotTopic, lookupTopic_setTopic_self]

theorem subscribeMany_closed (s : StreamState mu) (t : String)
    (hs : List (HandlerFunc mu × Int)) :
    (subscribeMany s t hs).closed = s.closed := by
  induction hs generalizing s with
  | nil => rfl
  | cons p rest ih => exact (ih ((subscribe s t p.1 p.2).1)).trans rfl

theorem subscribeMany_eventch (s : StreamState mu) (t : String)
    (hs : List (HandlerFunc mu × Int)) :
    (subscribeMany s t hs).eventch = s.eventch := by
  induction hs generalizing s with
  | nil => rfl
  | cons p rest ih => exact (ih ((subscribe s t p.1 p.2).1)).trans rfl

theorem subscribeMany_snapshot_length (s : StreamState mu) (t : String)
    (hs : List (HandlerFunc mu × Int)) :
    (snapshotTopic (subscribeMany s t hs) t).length =
      (snapshotTopic s t).length + hs.length := by
  induction hs generalizing s with
  | nil => simp [subscribeMany]
  | cons p rest ih =>
      have hone := snapshotTopic_subscribe_self s t p.1 p.2
      have hrec := ih ((subscribe s t p.1 p.2).1)
      simp only [subscribeMany] at hrec ⊢
      rw [List.foldl_cons, hrec, hone]
      simp [List.length_append]
      omega

/-- Claim C3: after N subscribe calls for topic t (starting with no
handler on t, an open stream and an empty buffer) followed by one emit of
payload x on t, dispatching that event starts exactly N handler
invocations and each receives x. -/
theorem emit_dispatches_all_subscribed (s : StreamState mu) (t : String)
    (x : mu) (hs : List (HandlerFunc mu × Int))
    (hclosed : s.closed = false) (hch : s.eventch = [])
    (hT : snapshotTopic s t = []) :
    (dispatchNext ((emit (subscribeMany s t hs) t x).1)).2.length = hs.length ∧
    ∀ inv ∈ (dispatchNext ((emit (subscribeMany s t hs) t x).1)).2,
      inv.msg = x := by
  have h1 : (subscribeMany s t hs).closed = false :=
    (subscribeMany_closed s t hs).trans hclosed
  have h2 : (subscribeMany s t hs).eventch = [] :=
    (subscribeMany_eventch s t hs).trans hch
  have hemit : (emit (subscribeMany s t hs) t x).1 =
      { subscribeMany s t hs with eventch := [⟨t, x⟩] } := by
    simp [emit, h1, h2, chanCapacity]
  rw [hemit]
  have hdisp : (dispatchNext
      { subscribeMany s t hs with eventch := [⟨t, x⟩] }).2 =
      (snapshotTopic (subscribeMany s t hs) t).map (fun sub => ⟨sub, x⟩) := rfl
  rw [hdisp]
  constructor
  · rw [List.length_map, subscribeMany_snapshot_length, hT]
    simp
  · intro inv hinv
    rcases List.mem_map.1 hinv with ⟨sub, _, rfl⟩
    rfl

/-- Witness for claim C3 at a concrete input: two subscribers on topic t
and one emitted payload 5. -/
theorem emit_dispatches_all_subscribed_witness :
    ((initialState Nat).closed = false ∧ (initialState Nat).eventch = [] ∧
      snapshotTopic (initialState Nat) "t" = []) ∧
    ((dispatchNext ((emit (subscribeMany (initialState Nat) "t"
        [(hNormal, 0), (hNormal, 1)]) "t" 5).1)).2.length = 2 ∧
      ∀ inv ∈ (dispatchNext ((emit (subscribeMany (initialState Nat) "t"
        [(hNormal, 0), (hNormal, 1)]) "t" 5).1)).2, inv.msg = 5) :=
  ⟨⟨rfl, rfl, rfl⟩,
    emit_dispatches_all_subscribed (initialState Nat) "t" 5
      [(hNormal, 0), (hNormal, 1)] rfl rfl rfl⟩

/-- Claim C4: the queue capacity is 128 and an emit against a buffer
already holding 128 pending events leaves the state unchanged (the event
is dropped, never enqueued) and signals nothing but a log line. -/
theorem emit_full_queue_drops (s : StreamState mu) (t : String) (v : mu)
    (hfull : s.eventch.length = chanCapacity) :
    chanCapacity = 128 ∧ (emit s t v).1 = s ∧
    (s.closed = false →
      (emit s t v).2 = ["event channel full; dropping event"]) := by
  refine ⟨rfl, ?_, ?_⟩
  · by_cases h : s.closed <;> simp [emit, h, hfull]
  · intro h
    simp [emit, h, hfull]

/-- Witness for claim C4: a concrete state whose buffer holds exactly 128
events. -/
theorem emit_full_queue_drops_witness :
    fullState.eventch.length = chanCapacity ∧
    (chanCapacity = 128 ∧ (emit fullState "t" 7).1 = fullState ∧
      (fullState.closed = false →
        (emit fullState "t" 7).2 = ["event channel full; dropping event"])) :=
  ⟨by simp [fullState, initialState, chanCapacity],
    emit_full_queue_drops fullState "t" 7
      (by simp [fullState, initialState, chanCapacity])⟩

/-- The snapshot of a topic after an unsubscribe is the previous handler
list with every entry matching the removed id filtered out. -/
theorem snapshotTopic_unsubscribe_self (s : StreamState mu)
    (sub : Subscription mu) :
    snapshotTopic (unsubscribe s sub) sub.Topic =
      ((lookupTopic s.subs sub.Topic).getD []).filter
        (fun y => y.ID ≠ sub.ID) := by
  unfold unsubscribe
  cases hl : lookupTopic s.subs sub.Topic with
  | none => simp [snapshotTopic, hl]
  | some l =>
      simp only [hl, Option.getD_some]
      split
      · next he =>
          have h0 : l.filter (fun y => y.ID ≠ sub.ID) = [] :=
            List.isEmpty_iff.1 he
          simp only [snapshotTopic, lookupTopic_deleteTopic_self,
            Option.getD_none]
          exact h0.symm
      · next he =>
          simp [snapshotTopic, lookupTopic_setTopic_self]

/-- Claim C5: dispatch fans an event out to the point-in-time snapshot of
its topic, so a subscription removed before the snapshot was taken is
never among the invocations of that event. -/
theorem dispatch_skips_unsubscribed (s : StreamState mu)
    (sub : Subscription mu) (evt : EventRec mu)
    (h : evt.topic = sub.Topic) :
    ∀ inv ∈ dispatchEvent (unsubscribe s sub) evt, inv.sub.ID ≠ sub.ID := by
  intro inv hinv
  rcases List.mem_map.1 hinv with ⟨x, hx, rfl⟩
  rw [h, snapshotTopic_unsubscribe_self] at hx
  simpa using List.of_mem_filter hx

/-- Witness for claim C5: unsubscribing the only subscription on topic t
and then dispatching an event for t invokes nothing with its id. -/
theorem dispatch_skips_unsubscribed_witness :
    (EventRec.topic ⟨"t", (7 : Nat)⟩ = raceSub.Topic) ∧
    ∀ inv ∈ dispatchEvent (unsubscribe oneSubState raceSub) ⟨"t", 7⟩,
      inv.sub.ID ≠ raceSub.ID :=
  ⟨rfl, dispatch_skips_unsubscribed oneSubState raceSub ⟨"t", 7⟩ rfl⟩

theorem stop_stopDone (s : StreamState mu) : (stop s).stopDone = true := by
  by_cases h : s.stopDone <;> simp [stop, h]

theorem stop_stop (s : StreamState mu) : stop (stop s) = stop s := by
  have h : stop (stop s) = if (stop s).stopDone = true then stop s
      else { stopBody (stop s) with stopDone := true } := rfl
  rw [h, stop_stopDone]
  simp

/-- Claim C6: stop is idempotent.  Any positive number of sequential stop
calls yields the same state as one call, and the ghost drain counter
records exactly one execution of the stopOnce body (zero when the stream
was already stopped). -/
theorem stop_idempotent_drain_once (s : StreamState mu) (n : Nat)
    (hn : 1 ≤ n) :
    stop^[n] s = stop s ∧
    (stop^[n] s).drains = s.drains + (if s.stopDone then 0 else 1) := by
  have hiter : stop^[n] s = stop s := by
    induction n with
    | zero => omega
    | succ k ih =>
        cases Nat.eq_zero_or_pos k with
        | inl h0 => rw [h0]; simp
        | inr hpos =>
            rw [Function.iterate_succ_apply', ih hpos, stop_stop]
  refine ⟨hiter, ?_⟩
  rw [hiter]
  by_cases h : s.stopDone <;> simp [stop, stopBody, h]

/-- Witness for claim C6: two stop calls on the fresh stream equal one
call and drain exactly once. -/
theorem stop_idempotent_drain_once_witness :
    1 ≤ 2 ∧
    (stop^[2] (initialState Nat) = stop (initialState Nat) ∧
      (stop^[2] (initialState Nat)).drains =
        (initialState Nat).drains +
          (if (initialState Nat).stopDone then 0 else 1)) :=
  ⟨by decide, stop_idempotent_drain_once (initialState Nat) 2 (by decide)⟩

theorem registryInv_subscribe (s : StreamState mu) (t : String)
    (h : HandlerFunc mu) (n : Int) (hInv : RegistryInv s.subs) :
    RegistryInv ((subscribe s t h n).1).subs := by
  intro p hp
  rcases mem_setTopic _ _ _ p hp with h1 | h1
  · rw [h1]
    simp
  · exact hInv p h1

theorem registryInv_unsubscribe (s : StreamState mu) (sub : Subscription mu)
    (hInv : RegistryInv s.subs) : RegistryInv (unsubscribe s sub).subs := by
  unfold unsubscribe
  cases hl : lookupTopic s.subs sub.Topic with
  | none => exact hInv
  | some l =>
      simp only
      split
      · next he =>
          intro p hp
          exact hInv p (mem_deleteTopic _ _ _ hp)
      · next he =>
          intro p hp
          rcases mem_setTopic _ _ _ p hp with h1 | h1
          · rw [h1]
            intro hcon
            apply he
            rw [List.isEmpty_iff]
            simpa using hcon
          · exact hInv p h1

theorem registryInv_applyOps (ops : List (RegOp mu)) (s : StreamState mu)
    (hInv : RegistryInv s.subs) : RegistryInv (applyOps s ops).subs := by
  induction ops generalizing s with
  | nil => exact hInv
  | cons op rest ih =>
      cases op with
      | sub t h n =>
          exact ih ((subscribe s t h n).1) (registryInv_subscribe s t h n hInv)
      | unsub u =>
          exact ih (unsubscribe s u) (registryInv_unsubscribe s u hInv)

/-- Claim C7: starting from the fresh stream, after any sequence of
subscribe and unsubscribe operations, the registry holds a key for a
topic exactly when that topic has a non-empty handler list. -/
theorem registry_key_iff_handlers (ops : List (RegOp mu)) (t : String) :
    (lookupTopic (applyOps (initialState mu) ops).subs t).isSome ↔
      snapshotTopic (applyOps (initialState mu) ops) t ≠ [] := by
  have hInv : RegistryInv ((applyOps (initialState mu) ops)).subs :=
    registryInv_applyOps ops _ (by intro p hp; simp [initialState] at hp)
  constructor
  · intro hsome
    cases hl : lookupTopic (applyOps (initialState mu) ops).subs t with
    | none => rw [hl] at hsome; simp at hsome
    | some l =>
        have hmem := lookupTopic_mem _ _ _ hl
        have hne := hInv (t, l) hmem
        simpa [snapshotTopic, hl] using hne
  · intro hne
    cases hl : lookupTopic (applyOps (initialState mu) ops).subs t with
    | none =>
        exfalso
        apply hne
        simp [snapshotTopic, hl]
    | some l => simp

theorem subscribeTrace_ids (inputs : List (String × HandlerFunc mu × Int))
    (s : StreamState mu)
    (h : s.subIDCounter + inputs.length < uint64Mod) :
    ((subscribeTrace s inputs).2.map Subscription.ID) =
      List.range' (s.subIDCounter + 1) inputs.length := by
  induction inputs generalizing s with
  | nil => simp [subscribeTrace]
  | cons p rest ih =>
      obtain ⟨t, hf, n⟩ := p
      have hlt : s.subIDCounter + 1 < uint64Mod := by
        simp only [List.length_cons] at h
        omega
      have hmod : (s.subIDCounter + 1) % uint64Mod = s.subIDCounter + 1 :=
        Nat.mod_eq_of_lt hlt
      have hrec := ih ((subscribe s t hf n).1) (by
        simp only [List.length_cons] at h
        simp [subscribe, hmod]
        omega)
      simp only [subscribeTrace, List.map_cons, hrec, List.length_cons]
      rw [List.range'_succ]
      simp [subscribe, hmod]

/-- Claim C8: every subscribe returns (it is a total function of the
embedding, no failure path exists) and the ids handed out over any run of
fewer than 2 to the 64 subscribe calls, across all topics, are strictly
increasing, hence globally unique and never reused. -/
theorem subscribe_ids_strictly_increasing
    (inputs : List (String × HandlerFunc mu × Int))
    (h : inputs.length < uint64Mod) :
    List.Pairwise (· < ·)
      (((subscribeTrace (initialState mu) inputs).2).map Subscription.ID) := by
  rw [subscribeTrace_ids inputs (initialState mu)
    (by simpa [initialState] using h)]
  exact List.pairwise_lt_range' _ _

/-- Witness for claim C8: two subscribes on different topics yield
strictly increasing ids. -/
theorem subscribe_ids_strictly_increasing_witness :
    ([("a", hNormal, 0), ("b", hNormal, 1)] :
        List (String × HandlerFunc Nat × Int)).length < uint64Mod ∧
    List.Pairwise (· < ·)
      (((subscribeTrace (initialState Nat)
        [("a", hNormal, 0), ("b", hNormal, 1)]).2).map Subscription.ID) :=
  ⟨by norm_num [uint64Mod],
    subscribe_ids_strictly_increasing [("a", hNormal, 0), ("b", hNormal, 1)]
      (by norm_num [uint64Mod])⟩

/-- Claim C9: the package-level Emit with a nil global stream returns
normally with only a warning log line and no state change, and Emit never
yields a panic for any stream value: the nil check runs before any
dereference. -/
theorem emit_nil_stream_noop (t : String) (v : mu) :
    EmitGlobal (none : Option (StreamState mu)) t v =
      .ok (none, ["event stream not initialized; dropping event"]) ∧
    ∀ st : Option (StreamState mu), ∃ r, EmitGlobal st t v = .ok r := by
  refine ⟨rfl, ?_⟩
  intro st
  cases st with
  | none => exact ⟨_, rfl⟩
  | some s => exact ⟨_, rfl⟩

/-- Claim C10: subscribe performed after the first stop completed still
returns a fresh subscription with the next id and re-inserts a registry
entry for its topic, the closed flag notwithstanding: subscribe checks no
stopped state. -/
theorem subscribe_after_stop_succeeds (s : StreamState mu) (t : String)
    (h : HandlerFunc mu) (now : Int)
    (hdone : s.stopDone = false) (hctr : s.subIDCounter + 1 < uint64Mod) :
    (subscribe (stop s) t h now).2.ID = s.subIDCounter + 1 ∧
    lookupTopic ((subscribe (stop s) t h now).1).subs t =
      some [(subscribe (stop s) t h now).2] ∧
    (stop s).closed = true ∧
    ((subscribe (stop s) t h now).1).closed = true := by
  have hstop : stop s = { stopBody s with stopDone := true } := by
    simp [stop, hdone]
  have hmod := Nat.mod_eq_of_lt hctr
  refine ⟨?_, ?_, ?_, ?_⟩ <;>
    simp [hstop, subscribe, stopBody, hmod, lookupTopic, setTopic]

/-- Witness for claim C10: subscribing on the stopped fresh stream. -/
theorem subscribe_after_stop_succeeds_witness :
    ((initialState Nat).stopDone = false ∧
      (initialState Nat).subIDCounter + 1 < uint64Mod) ∧
    ((subscribe (stop (initialState Nat)) "t" hNormal 3).2.ID =
        (initialState Nat).subIDCounter + 1 ∧
      lookupTopic ((subscribe (stop (initialState Nat)) "t" hNormal 3).1).subs
          "t" = some [(subscribe (stop (initialState Nat)) "t" hNormal 3).2] ∧
      (stop (initialState Nat)).closed = true ∧
      ((subscribe (stop (initialState Nat)) "t" hNormal 3).1).closed = true) :=
  ⟨⟨rfl, by norm_num [uint64Mod, initialState]⟩,
    subscribe_after_stop_succeeds (initialState Nat) "t" hNormal 3 rfl
      (by norm_num [uint64Mod, initialState])⟩

/-- Claim C1 is contradicted by the code: the per-handler goroutine body
has a deferred wg.Done but no recover, so a handler panic escapes the
goroutine and, by Go runtime semantics, crashes the whole process,
dispatch loop and producers included, with nothing logged at the
invocation boundary; only the join count still records the invocation as
complete.  Evaluated here at a concrete faulting handler. -/
theorem handler_panic_escapes_goroutine :
    processCrashes (handlerGoroutineBody faultySub ⟨false⟩ 0) = true ∧
    (handlerGoroutineBody faultySub ⟨false⟩ 0).wgDone = true :=
  ⟨rfl, rfl⟩

/-- Claim C2 is contradicted by the code: along a legal interleaving the
loop dequeues the one pending event and snapshots its handler, then a
stop call runs its whole body — wg.Wait sees counter zero because wg.Add
has not happened yet — and returns while the loop has not exited; the
loop then registers and starts the handler invocation after stop already
returned. -/
theorem stop_returns_before_loop_exit :
    Relation.ReflTransGen Step raceInit raceStopReturned ∧
    raceStopReturned.stopPC = StopPC.sReturned ∧
    raceStopReturned.loop ≠ LoopPC.exited ∧
    raceStopReturned.wg = 0 ∧
    Step raceStopReturned raceSpawned ∧
    raceSpawned.stopPC = StopPC.sReturned ∧
    raceSpawned.wg = 1 := by
  have h1 : Step raceInit raceT1 := Step.loopRecv raceInit ⟨"t", 42⟩ [] rfl rfl
  have h2 : Step raceT1 raceT2 := Step.stopCall raceT1 rfl rfl
  have h3 : Step raceT2 raceT3 := Step.stopSetClosed raceT2 rfl
  have h4 : Step raceT3 raceT4 := Step.stopCancel raceT3 rfl
  have h5 : Step raceT4 raceT5 := Step.stopCloseChan raceT4 rfl
  have h6 : Step raceT5 raceT6 := Step.stopWait raceT5 rfl rfl
  have h7 : Step raceT6 raceStopReturned := Step.stopClear raceT6 rfl
  have h8 : Step raceStopReturned raceSpawned :=
    Step.loopSpawn raceStopReturned raceSub [] 42 rfl
  refine ⟨?_, rfl, ?_, rfl, h8, rfl, rfl⟩
  · exact ((((((Relation.ReflTransGen.single h1).tail h2).tail h3).tail
      h4).tail h5).tail h6).tail h7
  · intro hcon
    exact LoopPC.noConfusion hcon

end EventBus
